import Mathlib

/-!
Shallow embedding of the NovelAI Script Build System's project-metadata
pipeline: the three-tier metadata resolution (`ensureProject`), the legacy
`license`/`sourceFiles` migration, the build step (`buildProject`), the
output-file naming (`rollupOutputOptions`), the creation flow
(`createNewProject`), and a model of the yaml serialization used to persist
the canonical record.  File reads are modelled as values (absent, present
but unparseable, or parsed), UUID generation and clock sampling as explicit
parameters, and filesystem paths as lists of segments.
-/

/-- Configuration items are opaque records passed through unmodified by the
resolver; modelled as opaque strings. -/
abbrev ConfigItem := String

/-- The canonical metadata record (source type `Meta`, fields in the
declared order). -/
structure Meta where
  compatibilityVersion : String
  id : String
  name : String
  version : String
  createdAt : Nat
  author : String
  description : String
  memoryLimit : Nat
  updatedAt : Nat
  config : List ConfigItem
deriving DecidableEq

/-- A parsed metadata object as read from disk: any subset of the keys may
be present (`none` = key absent).  JS object spread lets every present key
override. -/
structure MetaPatch where
  compatibilityVersion : Option String := none
  id : Option String := none
  name : Option String := none
  version : Option String := none
  createdAt : Option Nat := none
  author : Option String := none
  description : Option String := none
  memoryLimit : Option Nat := none
  updatedAt : Option Nat := none
  config : Option (List ConfigItem) := none
deriving DecidableEq

/-- The legacy `project.json` shape (source type `LegacyMeta`): the
metadata keys plus the optional `sourceFiles` and `license` keys. -/
structure LegacyMeta extends MetaPatch where
  sourceFiles : Option (List String) := none
  license : Option String := none
deriving DecidableEq

/-- JavaScript string coercion of a possibly-undefined value, as performed
by `meta.description += ...` when `description` is absent: `undefined`
stringifies to the literal text "undefined". -/
def jsCoerce : Option String → String
  | some s => s
  | none => "undefined"

/-- JavaScript truthiness of a possibly-absent string value, as tested by
`if (meta.license)`: an absent key and the empty string are falsy. -/
def jsTruthy : Option String → Bool
  | some s => !(s == "")
  | none => false

/-- The migration step inside `ensureProject` (part_000 lines 219-223):
`delete meta.sourceFiles`; when `meta.license` is truthy, append
" License: <license>" to `description` (an absent description coerces to
the string "undefined"); then `delete meta.license`. -/
def migrateLegacy (m : LegacyMeta) : LegacyMeta :=
  let m1 : LegacyMeta := { m with sourceFiles := none }
  let m2 : LegacyMeta :=
    if jsTruthy m1.license then
      { m1 with
        description :=
          some (jsCoerce m1.description ++ " License: " ++ jsCoerce m1.license) }
    else m1
  { m2 with license := none }

/-- JS object spread `{...base, ...patch}` over the metadata keys: each key
the patch defines overrides the base value. -/
def spreadMeta (base : Meta) (p : MetaPatch) : Meta where
  compatibilityVersion := p.compatibilityVersion.getD base.compatibilityVersion
  id := p.id.getD base.id
  name := p.name.getD base.name
  version := p.version.getD base.version
  createdAt := p.createdAt.getD base.createdAt
  author := p.author.getD base.author
  description := p.description.getD base.description
  memoryLimit := p.memoryLimit.getD base.memoryLimit
  updatedAt := p.updatedAt.getD base.updatedAt
  config := p.config.getD base.config

/-- The compatibility constant `COMPAT_VERSION` (part_000 line 187). -/
def COMPAT_VERSION : String := "naiscript-1.0"

/-- The fully-defaulted record `ensureProject` seeds (part_000 lines
189-204); the fresh UUID and the sampled epoch seconds are explicit
parameters `freshId` and `now`. -/
def defaultMeta (dirName freshId : String) (now : Nat) : Meta where
  compatibilityVersion := COMPAT_VERSION
  id := freshId
  name := dirName
  version := "0.0.0"
  createdAt := now
  author := "Unknown"
  description := ""
  memoryLimit := 8
  updatedAt := now
  config := []

/-- Outcome of reading-then-parsing one file: `none` when the file is
absent (the read rejects), `some (Except.error e)` when it is present but
unparseable, `some (Except.ok v)` when it parses. -/
abbrev FileRead (α : Type) := Option (Except String α)

/-- `readFile(..).then(parse).catch(() => d)`: the catch handler comes
after the parse step, so it maps both a missing file and a parse failure
to the fallback `d`. -/
def readOr {α : Type} (r : FileRead α) (d : α) : α :=
  match r with
  | some (Except.ok v) => v
  | _ => d

/-- A project handle (source type `Project`): directory base name,
root path (as segments), resolved metadata. -/
structure Project where
  name : String
  path : List String
  meta : Meta
deriving DecidableEq

/-- Base name of a path given as segments (`basename`). -/
def basename (p : List String) : String := p.getLastD ""

/-- `ensureProject` (part_000 lines 188-228): seed the defaults, read
`project.json` (legacy descriptor), `config.yaml` (legacy config items)
and `project.yaml` (unified descriptor) — each read swallowing absence
and parse failure into its fallback — run the legacy migration, then
merge: spread the legacy descriptor over the defaults, assign the config
value, and spread the unified descriptor last. -/
def ensureProject (projectPath : List String) (freshId : String) (now : Nat)
    (projectJson : FileRead LegacyMeta)
    (configYaml : FileRead (List ConfigItem))
    (projectYaml : FileRead MetaPatch) : Project :=
  let dirName := basename projectPath
  let defaults := defaultMeta dirName freshId now
  let meta := readOr projectJson {}
  let config := readOr configYaml []
  let pyaml := readOr projectYaml {}
  let meta2 := migrateLegacy meta
  let m1 := spreadMeta defaults meta2.toMetaPatch
  let m2 := { m1 with config := config }
  { name := dirName, path := projectPath, meta := spreadMeta m2 pyaml }

/-- The resolved metadata of a load, for stating properties of
`ensureProject`. -/
def resolvedMeta (projectPath : List String) (freshId : String) (now : Nat)
    (projectJson : FileRead LegacyMeta)
    (configYaml : FileRead (List ConfigItem))
    (projectYaml : FileRead MetaPatch) : Meta :=
  (ensureProject projectPath freshId now projectJson configYaml projectYaml).meta

/-- The merge precedence exactly as the claim words it: tiers are applied
in the order defaults, legacy single-file descriptor, legacy config-items
file (populating only `config`), unified descriptor, each later tier
overriding every field it defines — so a tier whose file is absent or
unparseable contributes nothing. -/
def claimResolve (projectPath : List String) (freshId : String) (now : Nat)
    (projectJson : FileRead LegacyMeta)
    (configYaml : FileRead (List ConfigItem))
    (projectYaml : FileRead MetaPatch) : Meta :=
  let defaults := defaultMeta (basename projectPath) freshId now
  let legacyTier : MetaPatch :=
    match projectJson with
    | some (Except.ok m) => (migrateLegacy m).toMetaPatch
    | _ => {}
  let m1 := spreadMeta defaults legacyTier
  let m2 :=
    match configYaml with
    | some (Except.ok c) => { m1 with config := c }
    | _ => m1
  let unifiedTier : MetaPatch :=
    match projectYaml with
    | some (Except.ok p) => p
    | _ => {}
  spreadMeta m2 unifiedTier

/-- The overlay the code actually implements: the same tier order, except
that the config tier is applied unconditionally — when `config.yaml` is
absent or unparseable it contributes the empty list, overriding any
`config` carried by the legacy descriptor. -/
def codeResolve (projectPath : List String) (freshId : String) (now : Nat)
    (projectJson : FileRead LegacyMeta)
    (configYaml : FileRead (List ConfigItem))
    (projectYaml : FileRead MetaPatch) : Meta :=
  let defaults := defaultMeta (basename projectPath) freshId now
  let legacyTier : MetaPatch :=
    match projectJson with
    | some (Except.ok m) => (migrateLegacy m).toMetaPatch
    | _ => {}
  let m1 := spreadMeta defaults legacyTier
  let m2 := { m1 with config := readOr configYaml [] }
  let unifiedTier : MetaPatch :=
    match projectYaml with
    | some (Except.ok p) => p
    | _ => {}
  spreadMeta m2 unifiedTier

/-- The set of characters matched by the JavaScript regex class `\s`
(ASCII whitespace plus the Unicode space separators). -/
def isJsWhitespace (c : Char) : Bool :=
  c = ' ' || c = '\t' || c = '\n' || c = '\r' || c = '\x0b' || c = '\x0c' ||
  c = ' ' || c = ' ' || (' ' ≤ c && c ≤ ' ') ||
  c = ' ' || c = ' ' || c = ' ' || c = ' ' ||
  c = '　' || c = '﻿'

/-- `replaceAll(/\s+/g, "-")`: every maximal run of whitespace becomes a
single hyphen (a whitespace character followed by more whitespace is
dropped; the last of a run becomes the hyphen). -/
def collapseWs : List Char → List Char
  | [] => []
  | [c] => if isJsWhitespace c then ['-'] else [c]
  | c1 :: c2 :: rest =>
    if isJsWhitespace c1 then
      if isJsWhitespace c2 then collapseWs (c2 :: rest)
      else '-' :: collapseWs (c2 :: rest)
    else c1 :: collapseWs (c2 :: rest)

/-- `kebabCase` (part_000 line 351): lowercase the name and collapse each
whitespace run to a hyphen (ASCII case mapping). -/
def kebabCase (s : String) : String := String.mk (collapseWs (s.data.map Char.toLower))

/-- The output artifact name from `rollupOutputOptions` (part_007 line 44):
the entry file name is the template literal `project.name` + ".naiscript",
where `project.name` is the base name of the project directory. -/
def outputFileName (p : Project) : String := p.name ++ ".naiscript"

/-- Split a character list at newline characters; total inverse of
`joinNl` on newline-free pieces.  Always returns at least one piece. -/
def splitNl : List Char → List (List Char)
  | [] => [[]]
  | c :: cs =>
    match splitNl cs with
    | [] => [[]]
    | l :: ls => if c = '\n' then [] :: l :: ls else (c :: l) :: ls

/-- Join pieces with single newline characters. -/
def joinNl : List (List Char) → List Char
  | [] => []
  | [l] => l
  | l :: ls => l ++ '\n' :: joinNl ls

/-- Strip an expected leading character sequence, or fail. -/
def dropPfxL : List Char → List Char → Option (List Char)
  | [], l => some l
  | _ :: _, [] => none
  | a :: p, b :: l => if a = b then dropPfxL p l else none

/-- Strip the same expected leading sequence from every line, or fail. -/
def stripAll (p : List Char) : List (List Char) → Option (List (List Char))
  | [] => some []
  | l :: ls =>
    match dropPfxL p l, stripAll p ls with
    | some v, some vs => some (v :: vs)
    | _, _ => none

/-- A line belonging to an indented block (two leading spaces). -/
def isIndentedLine : List Char → Bool
  | ' ' :: ' ' :: _ => true
  | _ => false

/-- Take the leading indented block of lines, returning it and the rest. -/
def grabIndented : List (List Char) → List (List Char) × List (List Char)
  | [] => ([], [])
  | l :: ls =>
    if isIndentedLine l then
      let r := grabIndented ls
      (l :: r.1, r.2)
    else ([], l :: ls)

/-- Little-endian decimal digits of `n`, computed with explicit fuel so
that the definition is structurally recursive (and kernel-reducible);
agrees with `Nat.digits 10 n` whenever `n ≤ fuel`. -/
def natDigitsRev : Nat → Nat → List Nat
  | 0, _ => []
  | fuel+1, n => if n = 0 then [] else n % 10 :: natDigitsRev fuel (n / 10)

/-- Decimal rendering of a natural number as characters. -/
def natToStr (n : Nat) : List Char :=
  if n = 0 then ['0'] else ((natDigitsRev n n).map Nat.digitChar).reverse

/-- Numeric value of a decimal digit character. -/
def charDigitV (c : Char) : Nat := c.toNat - 48

/-- Parse a nonempty all-digit character list as a natural number. -/
def parseNatL (l : List Char) : Option Nat :=
  if !l.isEmpty && l.all Char.isDigit then
    some (Nat.ofDigits 10 ((l.map charDigitV).reverse))
  else none

def cvKey : List Char := "compatibilityVersion: ".data
def idKey : List Char := "id: ".data
def nameKey : List Char := "name: ".data
def versionKey : List Char := "version: ".data
def createdKey : List Char := "createdAt: ".data
def authorKey : List Char := "author: ".data
def descKey : List Char := "description: |-".data
def memKey : List Char := "memoryLimit: ".data
def updKey : List Char := "updatedAt: ".data
def cfgKey : List Char := "config:".data
def itemKey : List Char := "  - ".data
def sp2 : List Char := [' ', ' ']

/-- Modelled from the spec: the external yaml library's rendering of the
canonical record (`yaml.stringify` / `Document.toString`, used by
`buildProject` and `generateScriptHeader` but not part of this
repository) — one `key: value` line per scalar field in declaration
order, the free-text `description` as a literal block scalar whose lines
are indented by two spaces (preserving the value's line structure
byte-for-byte), and the `config` sequence as one `-` item line per
element.  These are the lines of the rendered text. -/
def metaLines (m : Meta) : List (List Char) :=
  (cvKey ++ m.compatibilityVersion.data) ::
  (idKey ++ m.id.data) ::
  (nameKey ++ m.name.data) ::
  (versionKey ++ m.version.data) ::
  (createdKey ++ natToStr m.createdAt) ::
  (authorKey ++ m.author.data) ::
  descKey ::
  ((splitNl m.description.data).map (fun l => sp2 ++ l) ++
    (memKey ++ natToStr m.memoryLimit) ::
    (updKey ++ natToStr m.updatedAt) ::
    cfgKey ::
    m.config.map (fun c => itemKey ++ c.data))

/-- Modelled from the spec: `serialize(record)` — the persisted textual
form of the canonical record (newline-joined lines of `metaLines`). -/
def serializeMeta (m : Meta) : String := String.mk (joinNl (metaLines m))

/-- Modelled from the spec: the parse of the canonical record from its
line structure — expects the fields in declaration order, collects the
indented block after the `description` header, and the trailing `config`
item lines. -/
def parseFields (ls : List (List Char)) : Option Meta :=
  match ls with
  | l0 :: l1 :: l2 :: l3 :: l4 :: l5 :: l6 :: rest =>
    match dropPfxL cvKey l0, dropPfxL idKey l1, dropPfxL nameKey l2,
        dropPfxL versionKey l3, dropPfxL createdKey l4, dropPfxL authorKey l5 with
    | some cv, some idv, some nm, some ver, some cr, some au =>
      if l6 = descKey then
        let g := grabIndented rest
        match stripAll sp2 g.1, g.2 with
        | some descPieces, m0 :: m1 :: m2 :: items =>
          match dropPfxL memKey m0, dropPfxL updKey m1 with
          | some mem, some upd =>
            if m2 = cfgKey then
              match stripAll itemKey items, parseNatL cr, parseNatL mem,
                  parseNatL upd with
              | some itemVals, some crN, some memN, some updN =>
                some
                  { compatibilityVersion := String.mk cv
                    id := String.mk idv
                    name := String.mk nm
                    version := String.mk ver
                    createdAt := crN
                    author := String.mk au
                    description := String.mk (joinNl descPieces)
                    memoryLimit := memN
                    updatedAt := updN
                    config := itemVals.map String.mk }
              | _, _, _, _ => none
            else none
          | _, _ => none
        | _, _ => none
      else none
    | _, _, _, _, _, _ => none
  | _ => none

/-- Modelled from the spec: `parse(text)` — split the persisted text into
lines and parse the canonical record from them. -/
def parseMeta (s : String) : Option Meta := parseFields (splitNl s.data)

/-- The serialized metadata inside the generated script header is forced
to the current compatibility constant (`generateScriptHeader`, part_000
line 247: the spread `{...meta, compatibilityVersion: "naiscript-1.0"}`). -/
def headerMeta (m : Meta) : Meta := { m with compatibilityVersion := COMPAT_VERSION }

/-- `generateScriptHeader` (part_000 lines 245-253): the banner block
containing the serialized metadata (with the forced compatibility
constant) followed by the name comment. -/
def generateScriptHeader (m : Meta) : String :=
  "/*---\n" ++ serializeMeta (headerMeta m) ++ "\n---*/\n\n/**\n * " ++ m.name ++
    "\n * Built with NovelAI Script Build System\n */\n"

/-- The externally observable files one build cycle touches: the persisted
`project.yaml` text and the `dist` output artifact. -/
structure BuildState where
  projectYamlFile : Option String
  distFile : Option String
deriving DecidableEq

/-- `buildProject` (part_007 lines 56-73): stamp `updatedAt` on the
in-memory metadata, await the bundler (its outcome passed as
`bundleResult`: the generated module code, or the thrown error), and only
after a successful bundle write the dist artifact (header + code) and
persist the updated metadata; a bundler error rejects the awaited promise,
so the function propagates it and the writes never run. -/
def buildProject (m : Meta) (now : Nat) (bundleResult : Except String String)
    (st : BuildState) : Except String Meta × BuildState :=
  let m2 := { m with updatedAt := now }
  match bundleResult with
  | Except.error e => (Except.error e, st)
  | Except.ok code =>
    (Except.ok m2,
      { projectYamlFile := some (serializeMeta m2)
        distFile := some (generateScriptHeader m2 ++ code) })

/-- The answers collected by the interactive prompt in `createNewProject`. -/
structure Answers where
  name : String
  author : String
  description : String
  license : String
deriving DecidableEq

/-- The externally observable effects of one `createNewProject` run. -/
structure CreateResult where
  printedExistsError : Bool
  wroteProjectYaml : Option Meta
  wroteIndexTs : Option String
  wroteTsconfig : Bool
deriving DecidableEq

/-- `INDEX_TS_TEMPLATE` (watch.ts lines 44-46). -/
def INDEX_TS_TEMPLATE : String :=
  "(async () => \x7b\n  api.v1.log(\"Hello World!\");\n\x7d)();"

/-- `checkExistingProject` (watch.ts lines 51-58): `Promise.race` over
`access(join(path, "src"))` and `access(join(path, "project.yaml"))`,
then `.then(() => true).catch(() => false)`.  A race settles with the
FIRST promise to settle, fulfilled or rejected, so the result is the
presence bit of whichever access settles first; `srcSettlesFirst` is the
scheduling choice (an absent file's rejection can win the race against a
present file's resolution). -/
def checkExistingProject (srcPresent projectYamlPresent : Bool)
    (srcSettlesFirst : Bool) : Bool :=
  if srcSettlesFirst then srcPresent else projectYamlPresent

/-- `createNewProject` (watch.ts lines 60-123): after the prompt, the
awaited `checkExistingProject` result only controls whether the
"Project already exists" error line is printed — the function neither
returns nor throws there, and the flow falls through to `mkdir` and the
unconditional writes, overwriting `project.yaml` with a record carrying a
freshly generated id (`freshId`) and creation timestamp (`now`), and
overwriting `src/index.ts` with the template.  The directory state is
given by the two presence bits and the race schedule consumed by
`checkExistingProject`. -/
def createNewProject (srcPresent projectYamlPresent srcSettlesFirst : Bool)
    (answers : Answers) (freshId : String) (now : Nat) : CreateResult :=
  let projectExists := checkExistingProject srcPresent projectYamlPresent srcSettlesFirst
  let printed := if projectExists then true else false
  { printedExistsError := printed
    wroteProjectYaml := some
      { compatibilityVersion := COMPAT_VERSION
        id := freshId
        name := answers.name
        version := "0.0.0"
        createdAt := now
        author := answers.author
        description := answers.description ++ " License: " ++ answers.license
        memoryLimit := 8
        updatedAt := now
        config := [] }
    wroteIndexTs := some INDEX_TS_TEMPLATE
    wroteTsconfig := true }

/-! Helper lemmas. -/

theorem natDigitsRev_eq (fuel n : Nat) (h : n ≤ fuel) :
    natDigitsRev fuel n = Nat.digits 10 n := by
  induction fuel generalizing n with
  | zero =>
    have hn : n = 0 := by omega
    subst hn
    simp [natDigitsRev]
  | succ f ih =>
    by_cases hn : n = 0
    · subst hn
      simp [natDigitsRev]
    · have hlt : n / 10 < n := Nat.div_lt_self (Nat.pos_of_ne_zero hn) (by norm_num)
      rw [natDigitsRev, if_neg hn, ih (n / 10) (by omega),
        Nat.digits_def' (by norm_num : (1:ℕ) < 10) (Nat.pos_of_ne_zero hn)]

theorem migrateLegacy_id (m : LegacyMeta) :
    (migrateLegacy m).toMetaPatch.id = m.toMetaPatch.id := by
  simp only [migrateLegacy]
  split <;> rfl

theorem migrateLegacy_createdAt (m : LegacyMeta) :
    (migrateLegacy m).toMetaPatch.createdAt = m.toMetaPatch.createdAt := by
  simp only [migrateLegacy]
  split <;> rfl

theorem migrateLegacy_cv (m : LegacyMeta) :
    (migrateLegacy m).toMetaPatch.compatibilityVersion
      = m.toMetaPatch.compatibilityVersion := by
  simp only [migrateLegacy]
  split <;> rfl

/-! Claim theorems. -/

/-- C1 (counterexample): with a legacy descriptor defining `config` and a
unified descriptor present but no `config.yaml`, the resolved record does
not match the claimed overlay — the code unconditionally assigns the
config tier's fallback `[]`, clobbering the legacy descriptor's `config`,
while the claimed overlay (absent tier defines nothing) keeps it. -/
theorem c1_counterexample :
    resolvedMeta ["projects", "proj"] "fresh-uuid" 0
        (some (Except.ok ({ version := some "1.0.0", config := some ["item1"] } : LegacyMeta)))
        none
        (some (Except.ok ({ version := some "2.0.0" } : MetaPatch)))
      ≠
      claimResolve ["projects", "proj"] "fresh-uuid" 0
        (some (Except.ok ({ version := some "1.0.0", config := some ["item1"] } : LegacyMeta)))
        none
        (some (Except.ok ({ version := some "2.0.0" } : MetaPatch))) ∧
    (resolvedMeta ["projects", "proj"] "fresh-uuid" 0
        (some (Except.ok ({ version := some "1.0.0", config := some ["item1"] } : LegacyMeta)))
        none
        (some (Except.ok ({ version := some "2.0.0" } : MetaPatch)))).config = [] ∧
    (claimResolve ["projects", "proj"] "fresh-uuid" 0
        (some (Except.ok ({ version := some "1.0.0", config := some ["item1"] } : LegacyMeta)))
        none
        (some (Except.ok ({ version := some "2.0.0" } : MetaPatch)))).config = ["item1"] := by
  refine ⟨by decide, by decide, by decide⟩

/-- C1 (amended): the resolver applies the overlay defaults, then legacy
descriptor, then config tier, then unified descriptor, with each later
tier overriding the fields it defines — except that the config tier is
applied unconditionally (an absent or unparseable `config.yaml`
contributes the empty list, overriding any legacy-descriptor `config`);
in particular, with a legacy `version: "1.0.0"` and a unified
`version: "2.0.0"`, the resolved version is "2.0.0". -/
theorem c1_merge_order (projectPath : List String) (freshId : String) (now : Nat)
    (pj : FileRead LegacyMeta) (cfg : FileRead (List ConfigItem))
    (py : FileRead MetaPatch) :
    resolvedMeta projectPath freshId now pj cfg py =
      codeResolve projectPath freshId now pj cfg py ∧
    (∀ pjm : LegacyMeta, ∀ pym : MetaPatch,
      pj = some (Except.ok pjm) → py = some (Except.ok pym) →
      pjm.version = some "1.0.0" → pym.version = some "2.0.0" →
      (resolvedMeta projectPath freshId now pj cfg py).version = "2.0.0") := by
  constructor
  · rcases pj with _ | (_ | _) <;> rcases cfg with _ | (_ | _) <;>
      rcases py with _ | (_ | _) <;> rfl
  · intro pjm pym h1 h2 _ h4
    subst h1
    subst h2
    show pym.version.getD _ = "2.0.0"
    rw [h4]
    rfl

/-- C1 witness: the amended overlay and the version scenario evaluated at
a concrete pair of descriptors. -/
theorem c1_merge_order_witness :
    resolvedMeta ["projects", "proj"] "fresh-uuid" 5
        (some (Except.ok ({ version := some "1.0.0" } : LegacyMeta))) none
        (some (Except.ok ({ version := some "2.0.0" } : MetaPatch))) =
      codeResolve ["projects", "proj"] "fresh-uuid" 5
        (some (Except.ok ({ version := some "1.0.0" } : LegacyMeta))) none
        (some (Except.ok ({ version := some "2.0.0" } : MetaPatch))) ∧
    (resolvedMeta ["projects", "proj"] "fresh-uuid" 5
        (some (Except.ok ({ version := some "1.0.0" } : LegacyMeta))) none
        (some (Except.ok ({ version := some "2.0.0" } : MetaPatch)))).version = "2.0.0" :=
  ⟨(c1_merge_order _ _ _ _ _ _).1,
    (c1_merge_order _ _ _ _ _ _).2 _ _ rfl rfl rfl rfl⟩

/-- C2 (counterexample): a legacy descriptor that contains a `license` key
holding the empty string is falsy under the code's `if (meta.license)`
test, so no suffix is appended — the claim's "for every legacy descriptor
that contains a `license` field" fails at `license: ""`. -/
theorem c2_counterexample :
    (migrateLegacy { description := some "bar", license := some "" }).toMetaPatch.description
      = some "bar" ∧
    some "bar" ≠ some ("bar" ++ " License: " ++ "") := by
  refine ⟨by decide, by decide⟩

/-- C2 (amended): for every legacy descriptor with a truthy (non-empty)
`license` value and a present `description`, the migrated record's
description is the original plus the literal suffix " License: <license>",
and the migrated record has no `license` and no `sourceFiles` key. -/
theorem c2_license_migration (m : LegacyMeta) (d lic : String)
    (hd : m.toMetaPatch.description = some d) (hlic : m.license = some lic)
    (hne : lic ≠ "") :
    (migrateLegacy m).toMetaPatch.description = some (d ++ " License: " ++ lic) ∧
    (migrateLegacy m).license = none ∧
    (migrateLegacy m).sourceFiles = none := by
  have hb : (lic == "") = false := beq_eq_false_iff_ne.mpr hne
  simp [migrateLegacy, jsTruthy, jsCoerce, hd, hlic, hb]

/-- C2 witness: the amended migration evaluated on a concrete legacy
descriptor carrying an MIT license. -/
theorem c2_license_migration_witness :
    (migrateLegacy { description := some "bar", license := some "MIT" }).toMetaPatch.description
      = some ("bar" ++ " License: " ++ "MIT") ∧
    (migrateLegacy { description := some "bar", license := some "MIT" }).license = none ∧
    (migrateLegacy { description := some "bar", license := some "MIT" }).sourceFiles = none :=
  c2_license_migration _ "bar" "MIT" rfl rfl (by decide)

/-- C3 (counterexample): a present but malformed `project.json` is not
surfaced to the caller — the catch handler sits after the parse step, so
the resolver silently falls back to the very record it would produce if
every source were absent (the resolver has no failure channel at all). -/
theorem c3_counterexample :
    ensureProject ["projects", "proj"] "fresh-uuid" 7
        (some (Except.error "SyntaxError: Unexpected end of JSON input")) none none =
      ensureProject ["projects", "proj"] "fresh-uuid" 7 none none none ∧
    resolvedMeta ["projects", "proj"] "fresh-uuid" 7
        (some (Except.error "SyntaxError: Unexpected end of JSON input")) none none =
      defaultMeta "proj" "fresh-uuid" 7 := by
  refine ⟨by decide, by decide⟩

/-- C3 (amended): loading never fails at all — absence of every source
yields the fully-defaulted record seeded from the directory's base name,
and a present-but-malformed file is swallowed by the same catch handler
and treated exactly like an absent one (for each of the three sources). -/
theorem c3_load_never_fails (projectPath : List String) (freshId : String)
    (now : Nat) (e1 e2 e3 : String) (pj : FileRead LegacyMeta)
    (cfg : FileRead (List ConfigItem)) (py : FileRead MetaPatch) :
    ensureProject projectPath freshId now (some (Except.error e1)) cfg py =
      ensureProject projectPath freshId now none cfg py ∧
    ensureProject projectPath freshId now pj (some (Except.error e2)) py =
      ensureProject projectPath freshId now pj none py ∧
    ensureProject projectPath freshId now pj cfg (some (Except.error e3)) =
      ensureProject projectPath freshId now pj cfg none ∧
    ensureProject projectPath freshId now none none none =
      { name := basename projectPath, path := projectPath,
        meta := defaultMeta (basename projectPath) freshId now } :=
  ⟨rfl, rfl, rfl, rfl⟩

/-- C4: when a present source defines `id` or `createdAt`, the resolved
record takes the value from the most authoritative source defining it —
the unified descriptor first, else the legacy descriptor — never the
freshly generated `freshId` or the freshly sampled `now`. -/
theorem c4_id_createdAt_preserved (projectPath : List String) (freshId : String)
    (now : Nat) (pjm : LegacyMeta) (cfg : FileRead (List ConfigItem))
    (pym : MetaPatch) (i : String) (t : Nat) :
    (pym.id = some i →
      (resolvedMeta projectPath freshId now (some (Except.ok pjm)) cfg
        (some (Except.ok pym))).id = i) ∧
    (pym.id = none → pjm.toMetaPatch.id = some i →
      (resolvedMeta projectPath freshId now (some (Except.ok pjm)) cfg
        (some (Except.ok pym))).id = i) ∧
    (pym.createdAt = some t →
      (resolvedMeta projectPath freshId now (some (Except.ok pjm)) cfg
        (some (Except.ok pym))).createdAt = t) ∧
    (pym.createdAt = none → pjm.toMetaPatch.createdAt = some t →
      (resolvedMeta projectPath freshId now (some (Except.ok pjm)) cfg
        (some (Except.ok pym))).createdAt = t) := by
  refine ⟨?_, ?_, ?_, ?_⟩
  · intro h
    show pym.id.getD _ = i
    rw [h]
    rfl
  · intro h1 h2
    show pym.id.getD ((migrateLegacy pjm).toMetaPatch.id.getD freshId) = i
    rw [h1, migrateLegacy_id, h2]
    rfl
  · intro h
    show pym.createdAt.getD _ = t
    rw [h]
    rfl
  · intro h1 h2
    show pym.createdAt.getD ((migrateLegacy pjm).toMetaPatch.createdAt.getD now) = t
    rw [h1, migrateLegacy_createdAt, h2]
    rfl

/-- C4 witness: a legacy descriptor carrying `id` and `createdAt` next to
an empty unified descriptor; the resolved record keeps the legacy values
rather than the fresh UUID "fresh-uuid" or the fresh timestamp 99. -/
theorem c4_id_createdAt_preserved_witness :
    (resolvedMeta ["projects", "proj"] "fresh-uuid" 99
        (some (Except.ok ({ id := some "legacy-id", createdAt := some 11 } : LegacyMeta)))
        none (some (Except.ok ({} : MetaPatch)))).id = "legacy-id" ∧
    (resolvedMeta ["projects", "proj"] "fresh-uuid" 99
        (some (Except.ok ({ id := some "legacy-id", createdAt := some 11 } : LegacyMeta)))
        none (some (Except.ok ({} : MetaPatch)))).createdAt = 11 :=
  ⟨(c4_id_createdAt_preserved ["projects", "proj"] "fresh-uuid" 99 _ none _ "legacy-id" 11).2.1
      rfl rfl,
    (c4_id_createdAt_preserved ["projects", "proj"] "fresh-uuid" 99 _ none _ "legacy-id" 11).2.2.2
      rfl rfl⟩

/-- C5 (counterexample): a unified descriptor carrying
`compatibilityVersion: bogus-0.9` wins the merge — the loaded record is
not forced to the current constant; the spread order puts the on-disk
value over the default. -/
theorem c5_counterexample :
    (resolvedMeta ["projects", "proj"] "fresh-uuid" 0 none none
        (some (Except.ok ({ compatibilityVersion := some "bogus-0.9" } : MetaPatch)))).compatibilityVersion
      = "bogus-0.9" ∧
    ("bogus-0.9" : String) ≠ COMPAT_VERSION := by
  refine ⟨by decide, by decide⟩

/-- C5 (amended): `compatibilityVersion` is taken from the most
authoritative source that defines it (unified first, else legacy) and only
defaults to the constant when no source defines it; the constant is forced
only inside the generated script header, whose serialized metadata always
carries it. -/
theorem c5_compat_version (projectPath : List String) (freshId : String)
    (now : Nat) (pjm : LegacyMeta) (cfg : FileRead (List ConfigItem))
    (pym : MetaPatch) (v : String) (m : Meta) :
    (pym.compatibilityVersion = some v →
      (resolvedMeta projectPath freshId now (some (Except.ok pjm)) cfg
        (some (Except.ok pym))).compatibilityVersion = v) ∧
    (pjm.toMetaPatch.compatibilityVersion = some v →
      (resolvedMeta projectPath freshId now (some (Except.ok pjm)) cfg
        none).compatibilityVersion = v) ∧
    (headerMeta m).compatibilityVersion = COMPAT_VERSION ∧
    (resolvedMeta projectPath freshId now none cfg none).compatibilityVersion
      = COMPAT_VERSION := by
  refine ⟨?_, ?_, rfl, rfl⟩
  · intro h
    show pym.compatibilityVersion.getD _ = v
    rw [h]
    rfl
  · intro h
    show Option.getD none
        ((migrateLegacy pjm).toMetaPatch.compatibilityVersion.getD COMPAT_VERSION) = v
    rw [migrateLegacy_cv, h]
    rfl

/-- C5 witness: the amended behaviour evaluated on a unified descriptor
with a non-constant `compatibilityVersion` and on a concrete record pushed
through the header normalization. -/
theorem c5_compat_version_witness :
    (resolvedMeta ["projects", "proj"] "fresh-uuid" 0
        (some (Except.ok ({} : LegacyMeta))) none
        (some (Except.ok ({ compatibilityVersion := some "old-0.9" } : MetaPatch)))).compatibilityVersion
      = "old-0.9" ∧
    (headerMeta (defaultMeta "proj" "fresh-uuid" 0)).compatibilityVersion = COMPAT_VERSION :=
  ⟨(c5_compat_version ["projects", "proj"] "fresh-uuid" 0 {} none
      { compatibilityVersion := some "old-0.9" } "old-0.9"
      (defaultMeta "proj" "fresh-uuid" 0)).1 rfl,
    (c5_compat_version ["projects", "proj"] "fresh-uuid" 0 {} none
      { compatibilityVersion := some "old-0.9" } "old-0.9"
      (defaultMeta "proj" "fresh-uuid" 0)).2.2.1⟩

/-- C6: when the bundler invocation throws, `buildProject` propagates that
error and the cycle aborts before the metadata-persistence step — the
descriptor file (and the dist artifact) on disk are left exactly as they
were. -/
theorem c6_bundler_error_aborts (m : Meta) (now : Nat) (e : String)
    (st : BuildState) :
    buildProject m now (Except.error e) st = (Except.error e, st) ∧
    (buildProject m now (Except.error e) st).2.projectYamlFile = st.projectYamlFile ∧
    (buildProject m now (Except.error e) st).2.distFile = st.distFile :=
  ⟨rfl, rfl, rfl⟩

/-- C9 (counterexample): a legacy descriptor that defines `license` as the
empty string and omits `description` is inside the claim's domain, but the
truthiness guard skips the concatenation entirely — the resolved
description is the defaults tier's empty string, not
"undefined License: <license>". -/
theorem c9_counterexample :
    (resolvedMeta ["projects", "proj"] "fresh-uuid" 0
        (some (Except.ok ({ license := some "" } : LegacyMeta))) none
        none).description = "" ∧
    ("" : String) ≠ "undefined License: " ++ "" := by
  refine ⟨by decide, by decide⟩

/-- C9 (amended): a legacy descriptor defining a truthy (non-empty)
`license` but omitting `description` migrates to the literal description
"undefined License: <license>" (JS coerces the absent field to the string
"undefined"), and that concatenated value — now defined by the legacy tier
— overrides the defaults tier's empty string in the resolved record; a
falsy (empty-string) `license` skips the concatenation. -/
theorem c9_undefined_description (projectPath : List String) (freshId : String)
    (now : Nat) (pjm : LegacyMeta) (lic : String)
    (cfg : FileRead (List ConfigItem))
    (hlic : pjm.license = some lic) (hne : lic ≠ "")
    (hd : pjm.toMetaPatch.description = none) :
    (resolvedMeta projectPath freshId now (some (Except.ok pjm)) cfg
        none).description = "undefined License: " ++ lic := by
  have hb : (lic == "") = false := beq_eq_false_iff_ne.mpr hne
  have hm : (migrateLegacy pjm).toMetaPatch.description
      = some ("undefined" ++ " License: " ++ lic) := by
    simp [migrateLegacy, jsTruthy, jsCoerce, hd, hlic, hb]
  show Option.getD none
      ((migrateLegacy pjm).toMetaPatch.description.getD "") = _
  rw [hm]
  show ("undefined" ++ " License: ") ++ lic = "undefined License: " ++ lic
  rfl

/-- C9 witness: the resolution evaluated on a concrete legacy descriptor
with `license: "MIT"` and no `description`. -/
theorem c9_undefined_description_witness :
    (resolvedMeta ["projects", "proj"] "fresh-uuid" 0
        (some (Except.ok ({ license := some "MIT" } : LegacyMeta))) none
        none).description = "undefined License: " ++ "MIT" :=
  c9_undefined_description ["projects", "proj"] "fresh-uuid" 0
    { license := some "MIT" } "MIT" none rfl (by decide) rfl

/-- C10 (counterexample): the claim's domain is "a `src` directory or
descriptor file is present", but `checkExistingProject` races the two
`access` calls — when only `project.yaml` is present and the absent
`src` path's rejection settles first, the race rejects and the check
returns false, so no "Project already exists" line is printed (the
overwrites still happen regardless). -/
theorem c10_counterexample :
    checkExistingProject false true true = false ∧
    (createNewProject false true true
        { name := "My Script", author := "A", description := "d", license := "MIT" }
        "fresh-uuid" 3).printedExistsError = false ∧
    (createNewProject false true true
        { name := "My Script", author := "A", description := "d", license := "MIT" }
        "fresh-uuid" 3).wroteIndexTs = some INDEX_TS_TEMPLATE := by
  refine ⟨by decide, by decide, by decide⟩

/-- C10 (amended): whenever `checkExistingProject`'s race returns true —
in particular under every schedule when both the `src` directory and
`project.yaml` are present — `createNewProject` prints the
"Project already exists" error but does not abort; and regardless of the
check's outcome it overwrites `project.yaml` with a record carrying the
freshly generated id and creation timestamp, and overwrites
`src/index.ts` with the template. -/
theorem c10_create_overwrites (srcPresent projectYamlPresent srcSettlesFirst : Bool)
    (a : Answers) (freshId : String) (now : Nat) :
    (checkExistingProject srcPresent projectYamlPresent srcSettlesFirst = true →
      (createNewProject srcPresent projectYamlPresent srcSettlesFirst a freshId
        now).printedExistsError = true) ∧
    (srcPresent = true → projectYamlPresent = true →
      (createNewProject srcPresent projectYamlPresent srcSettlesFirst a freshId
        now).printedExistsError = true) ∧
    (createNewProject srcPresent projectYamlPresent srcSettlesFirst a freshId
        now).wroteProjectYaml = some
      { compatibilityVersion := COMPAT_VERSION, id := freshId, name := a.name,
        version := "0.0.0", createdAt := now, author := a.author,
        description := a.description ++ " License: " ++ a.license,
        memoryLimit := 8, updatedAt := now, config := [] } ∧
    (createNewProject srcPresent projectYamlPresent srcSettlesFirst a freshId
        now).wroteIndexTs = some INDEX_TS_TEMPLATE := by
  refine ⟨?_, ?_, rfl, rfl⟩
  · intro h
    show (if checkExistingProject srcPresent projectYamlPresent srcSettlesFirst
      then true else false) = true
    rw [h]
    decide
  · intro h1 h2
    show (if checkExistingProject srcPresent projectYamlPresent srcSettlesFirst
      then true else false) = true
    cases srcSettlesFirst <;> simp [checkExistingProject, h1, h2]

/-- C10 witness: both markers present, the `src` access settling second —
the check returns true, the error line is printed, and the overwrites
carry the fresh id "fresh-uuid" and timestamp 3. -/
theorem c10_create_overwrites_witness :
    (createNewProject true true false
        { name := "My Script", author := "A", description := "d", license := "MIT" }
        "fresh-uuid" 3).printedExistsError = true ∧
    (createNewProject true true false
        { name := "My Script", author := "A", description := "d", license := "MIT" }
        "fresh-uuid" 3).wroteProjectYaml = some
      { compatibilityVersion := COMPAT_VERSION, id := "fresh-uuid",
        name := "My Script", version := "0.0.0", createdAt := 3, author := "A",
        description := "d" ++ " License: " ++ "MIT", memoryLimit := 8,
        updatedAt := 3, config := [] } ∧
    (createNewProject true true false
        { name := "My Script", author := "A", description := "d", license := "MIT" }
        "fresh-uuid" 3).wroteIndexTs = some INDEX_TS_TEMPLATE :=
  ⟨(c10_create_overwrites true true false
      { name := "My Script", author := "A", description := "d", license := "MIT" }
      "fresh-uuid" 3).1 rfl,
    (c10_create_overwrites true true false
      { name := "My Script", author := "A", description := "d", license := "MIT" }
      "fresh-uuid" 3).2.2.1,
    (c10_create_overwrites true true false
      { name := "My Script", author := "A", description := "d", license := "MIT" }
      "fresh-uuid" 3).2.2.2⟩

/-- C8 (counterexample): the output artifact is named from the project
directory's base name, not from the metadata `name` field — a project in
directory "proj" whose descriptor names it "Fancy Name" builds
"proj.naiscript", while the claimed derivation would give
"fancy-name.naiscript". -/
theorem c8_counterexample :
    outputFileName (ensureProject ["projects", "proj"] "fresh-uuid" 0 none none
        (some (Except.ok ({ name := some "Fancy Name" } : MetaPatch)))) = "proj.naiscript" ∧
    (ensureProject ["projects", "proj"] "fresh-uuid" 0 none none
        (some (Except.ok ({ name := some "Fancy Name" } : MetaPatch)))).meta.name
      = "Fancy Name" ∧
    kebabCase "Fancy Name" ++ ".naiscript" = "fancy-name.naiscript" ∧
    ("proj.naiscript" : String) ≠ "fancy-name.naiscript" := by
  refine ⟨by decide, by decide, by decide, by decide⟩

/-- C8 (amended): the output filename is the project directory's base name
plus the fixed ".naiscript" extension; it coincides with the claimed
lowercased, whitespace-to-hyphen derivation exactly for directories that
the creation flow named `kebabCase(name)`. -/
theorem c8_output_filename (projectPath : List String) (freshId : String)
    (now : Nat) (pj : FileRead LegacyMeta) (cfg : FileRead (List ConfigItem))
    (py : FileRead MetaPatch) (dir : List String) (enteredName : String) :
    outputFileName (ensureProject projectPath freshId now pj cfg py) =
      basename projectPath ++ ".naiscript" ∧
    outputFileName (ensureProject (dir ++ [kebabCase enteredName]) freshId now pj cfg py) =
      kebabCase enteredName ++ ".naiscript" := by
  constructor
  · rfl
  · show basename (dir ++ [kebabCase enteredName]) ++ ".naiscript" = _
    rw [basename, List.getLastD_concat]

/-! Lemmas for the serialization round trip. -/

theorem splitNl_ne_nil (l : List Char) : splitNl l ≠ [] := by
  cases l with
  | nil => exact fun h => List.noConfusion h
  | cons c cs =>
    cases hcs : splitNl cs with
    | nil => simp [splitNl, hcs]
    | cons a as =>
      simp only [splitNl, hcs]
      split <;> exact fun h => List.noConfusion h

theorem joinNl_splitNl (l : List Char) : joinNl (splitNl l) = l := by
  induction l with
  | nil => rfl
  | cons c cs ih =>
    cases hcs : splitNl cs with
    | nil => exact absurd hcs (splitNl_ne_nil cs)
    | cons a as =>
      rw [hcs] at ih
      by_cases hc : c = '\n'
      · subst hc
        simp only [splitNl, hcs, if_pos rfl]
        show [] ++ '\n' :: joinNl (a :: as) = '\n' :: cs
        rw [ih]
        rfl
      · simp only [splitNl, hcs, if_neg hc]
        cases as with
        | nil =>
          show c :: a = c :: cs
          rw [show a = cs from ih]
        | cons b bs =>
          show (c :: a) ++ '\n' :: joinNl (b :: bs) = c :: cs
          rw [← ih]
          rfl

theorem splitNl_append (l r : List Char) (h : '\n' ∉ l) :
    splitNl (l ++ '\n' :: r) = l :: splitNl r := by
  induction l with
  | nil =>
    cases hr : splitNl r with
    | nil => exact absurd hr (splitNl_ne_nil r)
    | cons a as => simp [splitNl, hr]
  | cons c l2 ih =>
    have hc : ¬(c = '\n') := fun hh => h (by simp [hh])
    have hl : '\n' ∉ l2 := fun hh => h (List.mem_cons_of_mem _ hh)
    rw [List.cons_append, splitNl, ih hl]
    simp only [if_neg hc]

theorem splitNl_no_nl (l : List Char) (h : '\n' ∉ l) : splitNl l = [l] := by
  induction l with
  | nil => rfl
  | cons c cs ih =>
    have hc : ¬(c = '\n') := fun hh => h (by simp [hh])
    have hcs : '\n' ∉ cs := fun hh => h (List.mem_cons_of_mem _ hh)
    simp only [splitNl, ih hcs, if_neg hc]

theorem splitNl_joinNl (ls : List (List Char)) (hne : ls ≠ [])
    (h : ∀ p ∈ ls, '\n' ∉ p) : splitNl (joinNl ls) = ls := by
  induction ls with
  | nil => exact absurd rfl hne
  | cons a as ih =>
    cases as with
    | nil =>
      show splitNl (joinNl [a]) = [a]
      exact splitNl_no_nl a (h a (List.mem_cons_self a []))
    | cons b bs =>
      show splitNl (a ++ '\n' :: joinNl (b :: bs)) = a :: b :: bs
      rw [splitNl_append _ _ (h a (List.mem_cons_self a (b :: bs))),
        ih (fun hh => List.noConfusion hh)
          (fun p hp => h p (List.mem_cons_of_mem _ hp))]

theorem mem_splitNl_no_nl (l : List Char) : ∀ p ∈ splitNl l, '\n' ∉ p := by
  induction l with
  | nil =>
    intro p hp
    simp only [splitNl, List.mem_singleton] at hp
    subst hp
    exact List.not_mem_nil _
  | cons c cs ih =>
    intro p hp
    cases hcs : splitNl cs with
    | nil => exact absurd hcs (splitNl_ne_nil cs)
    | cons a as =>
      rw [hcs] at ih
      simp only [splitNl, hcs] at hp
      by_cases hc : c = '\n'
      · rw [if_pos hc] at hp
        rcases List.mem_cons.mp hp with h1 | h2
        · subst h1
          exact List.not_mem_nil _
        · exact ih p h2
      · rw [if_neg hc] at hp
        rcases List.mem_cons.mp hp with h1 | h2
        · subst h1
          intro hmem
          rcases List.mem_cons.mp hmem with h3 | h4
          · exact hc h3.symm
          · exact ih a (List.mem_cons_self a as) h4
        · exact ih p (List.mem_cons_of_mem _ h2)

theorem dropPfxL_append (p l : List Char) : dropPfxL p (p ++ l) = some l := by
  induction p with
  | nil => rfl
  | cons a p2 ih => simp [dropPfxL, ih]

theorem stripAll_map (p : List Char) (ls : List (List Char)) :
    stripAll p (ls.map (fun l => p ++ l)) = some ls := by
  induction ls with
  | nil => rfl
  | cons a as ih => simp [stripAll, dropPfxL_append, ih]

theorem grabIndented_append (ds : List (List Char)) (l : List Char)
    (post : List (List Char)) (hl : isIndentedLine l = false) :
    grabIndented (ds.map (fun d => sp2 ++ d) ++ l :: post)
      = (ds.map (fun d => sp2 ++ d), l :: post) := by
  induction ds with
  | nil => simp [grabIndented, hl]
  | cons d ds2 ih =>
    have hd : isIndentedLine (sp2 ++ d) = true := rfl
    simp [grabIndented, hd, ih]

theorem parseNatL_natToStr (n : Nat) : parseNatL (natToStr n) = some n := by
  by_cases hn : n = 0
  · subst hn
    decide
  · rw [natToStr, if_neg hn, natDigitsRev_eq n n le_rfl]
    have hdig : ∀ d ∈ Nat.digits 10 n, d < 10 :=
      fun d hd => Nat.digits_lt_base (by norm_num) hd
    have hnnil : Nat.digits 10 n ≠ [] := Nat.digits_ne_nil_iff_ne_zero.mpr hn
    have hisdig : ∀ c ∈ ((Nat.digits 10 n).map Nat.digitChar).reverse,
        c.isDigit = true := by
      intro c hc
      rw [List.mem_reverse] at hc
      obtain ⟨d, hd, rfl⟩ := List.mem_map.mp hc
      exact (by decide : ∀ x, x < 10 → (Nat.digitChar x).isDigit = true) d (hdig d hd)
    have hnonempty : (!((Nat.digits 10 n).map Nat.digitChar).reverse.isEmpty) = true := by
      cases he : ((Nat.digits 10 n).map Nat.digitChar).reverse with
      | nil =>
        rw [List.reverse_eq_nil_iff, List.map_eq_nil_iff] at he
        exact absurd he hnnil
      | cons a t => rfl
    have hcond : (!((Nat.digits 10 n).map Nat.digitChar).reverse.isEmpty &&
        ((Nat.digits 10 n).map Nat.digitChar).reverse.all Char.isDigit) = true := by
      rw [Bool.and_eq_true]
      exact ⟨hnonempty, List.all_eq_true.mpr hisdig⟩
    rw [parseNatL, if_pos hcond]
    congr 1
    rw [List.map_reverse, List.reverse_reverse, List.map_map]
    have hmapid : (Nat.digits 10 n).map (charDigitV ∘ Nat.digitChar)
        = (Nat.digits 10 n).map id := by
      apply List.map_congr_left
      intro d hd
      exact (by decide : ∀ x, x < 10 → charDigitV (Nat.digitChar x) = id x) d (hdig d hd)
    rw [hmapid, List.map_id, Nat.ofDigits_digits]

theorem natToStr_no_nl (n : Nat) : '\n' ∉ natToStr n := by
  rw [natToStr]
  split
  · decide
  · intro hmem
    rw [natDigitsRev_eq n n le_rfl, List.mem_reverse] at hmem
    obtain ⟨d, hd, heq⟩ := List.mem_map.mp hmem
    have hlt : d < 10 := Nat.digits_lt_base (by norm_num) hd
    exact (by decide : ∀ x, x < 10 → Nat.digitChar x ≠ '\n') d hlt heq

/-- C7: parsing the serialized canonical record reproduces it
field-for-field — including the exact line structure of the multi-line
`description` (no hypothesis restricts it) — provided the single-line
field values and the opaque config items contain no newline (where the
underlying text format supports them, as the spec puts it). -/
theorem c7_roundTrip (m : Meta)
    (h1 : '\n' ∉ m.compatibilityVersion.data) (h2 : '\n' ∉ m.id.data)
    (h3 : '\n' ∉ m.name.data) (h4 : '\n' ∉ m.version.data)
    (h5 : '\n' ∉ m.author.data) (h6 : ∀ c ∈ m.config, '\n' ∉ c.data) :
    parseMeta (serializeMeta m) = some m := by
  have hkv : ∀ k v : List Char, '\n' ∉ k → '\n' ∉ v → '\n' ∉ k ++ v :=
    fun k v hk hv hmem => (List.mem_append.mp hmem).elim hk hv
  have hlines : splitNl (joinNl (metaLines m)) = metaLines m := by
    apply splitNl_joinNl
    · simp [metaLines]
    · intro p hp
      simp only [metaLines, List.mem_cons, List.mem_append, List.mem_map] at hp
      rcases hp with rfl | rfl | rfl | rfl | rfl | rfl | rfl | hrest
      · exact hkv _ _ (by decide) h1
      · exact hkv _ _ (by decide) h2
      · exact hkv _ _ (by decide) h3
      · exact hkv _ _ (by decide) h4
      · exact hkv _ _ (by decide) (natToStr_no_nl _)
      · exact hkv _ _ (by decide) h5
      · decide
      · rcases hrest with ⟨l, hl, rfl⟩ | (rfl | rfl | rfl | ⟨cI, hcI, rfl⟩)
        · exact hkv _ _ (by decide) (mem_splitNl_no_nl _ l hl)
        · exact hkv _ _ (by decide) (natToStr_no_nl _)
        · exact hkv _ _ (by decide) (natToStr_no_nl _)
        · decide
        · exact hkv _ _ (by decide) (h6 cI hcI)
  have hgrab : grabIndented ((splitNl m.description.data).map (fun l => sp2 ++ l) ++
      (memKey ++ natToStr m.memoryLimit) :: (updKey ++ natToStr m.updatedAt) ::
        cfgKey :: m.config.map (fun c => itemKey ++ c.data)) =
      ((splitNl m.description.data).map (fun l => sp2 ++ l),
        (memKey ++ natToStr m.memoryLimit) :: (updKey ++ natToStr m.updatedAt) ::
          cfgKey :: m.config.map (fun c => itemKey ++ c.data)) :=
    grabIndented_append _ _ _ rfl
  have hstrip : stripAll itemKey (m.config.map (fun c => itemKey ++ c.data))
      = some (m.config.map String.data) := by
    have hmm : m.config.map (fun c => itemKey ++ c.data)
        = (m.config.map String.data).map (fun l => itemKey ++ l) := by
      rw [List.map_map]
      rfl
    rw [hmm]
    exact stripAll_map _ _
  have hmk : ∀ s : String, String.mk s.data = s := fun s => rfl
  rw [parseMeta, serializeMeta]
  show parseFields (splitNl (joinNl (metaLines m))) = some m
  rw [hlines, metaLines]
  simp only [parseFields, dropPfxL_append, hgrab, stripAll_map, hstrip,
    parseNatL_natToStr, joinNl_splitNl, hmk, if_pos, List.map_map]
  have hcfg : List.map (String.mk ∘ String.data) m.config = m.config := by
    rw [show (String.mk ∘ String.data) = (id : String → String) from rfl, List.map_id]
  simp only [hcfg]

/-- C7 witness: the round trip evaluated on a concrete record whose
description spans four lines (one of them empty). -/
theorem c7_roundTrip_witness :
    parseMeta (serializeMeta
      { compatibilityVersion := "naiscript-1.0", id := "abc-123",
        name := "My Script", version := "1.2.3", createdAt := 123,
        author := "Lane", description := "line one\nline two\n\nlast",
        memoryLimit := 8, updatedAt := 456, config := ["a: 1", "b: 2"] }) = some
      { compatibilityVersion := "naiscript-1.0", id := "abc-123",
        name := "My Script", version := "1.2.3", createdAt := 123,
        author := "Lane", description := "line one\nline two\n\nlast",
        memoryLimit := 8, updatedAt := 456, config := ["a: 1", "b: 2"] } :=
  c7_roundTrip _ (by decide) (by decide) (by decide) (by decide) (by decide)
    (by decide)
